import Mathlib

/-!
Verification of the query-intent extraction and URL-construction pipeline of
the ai-powered-search backend (`backend/main.go`).

The Go source is shallowly embedded:
* `SearchIntent` mirrors the Go struct of the same name.
* `constructQueryParts` / `constructSearchQuery` mirror `constructSearchQuery`
  (lines 157-193), including Go's `url.Values.Encode` percent-encoding,
  modelled byte-for-byte by `queryEscape` over the UTF-8 bytes of the value.
* `analyzeOpenAIResponse` mirrors the response-processing tail of
  `analyzePromptWithOpenAI` (lines 126-154): the API-error check, the
  empty-choices check, `strings.TrimSpace`, `json.Unmarshal` of the reply
  content into `SearchIntent` (modelled by a JSON parser plus `unmarshalIntent`
  following `encoding/json` semantics), and the nil-slice normalization.
-/

/-- Mirrors Go struct `SearchIntent` (main.go lines 20-27).  Field names follow
the JSON tags.  In Go the two slice fields can be `nil`; that pre-normalization
state is captured by `ParsedIntent` below, while `SearchIntent` is the
post-normalization value consumed by the query builder. -/
structure SearchIntent where
  main_query : String
  exact_phrases : List String
  site_filter : String
  file_type : String
  exclude_words : List String
  date_range : String
deriving DecidableEq

/-- The state of the Go `SearchIntent` value right after `json.Unmarshal`:
string fields default to `""`, slice fields are `nil` (here `none`) unless the
corresponding key was decoded. -/
structure ParsedIntent where
  main_query : String
  exact_phrases : Option (List String)
  site_filter : String
  file_type : String
  exclude_words : Option (List String)
  date_range : String
deriving DecidableEq

/- ===== Query builder (constructSearchQuery, main.go 157-193) ===== -/

/-- The `queryParts` slice built by `constructSearchQuery` (main.go 158-186):
each Go `append` becomes `++ [clause]`, each loop a `foldl`. -/
def constructQueryParts (intent : SearchIntent) : List String :=
  let queryParts : List String := []
  let queryParts := if intent.main_query ≠ "" then queryParts ++ [intent.main_query] else queryParts
  let queryParts := intent.exact_phrases.foldl
      (fun acc phrase => if phrase ≠ "" then acc ++ ["\"" ++ phrase ++ "\""] else acc) queryParts
  let queryParts := if intent.site_filter ≠ "" then queryParts ++ ["site:" ++ intent.site_filter] else queryParts
  let queryParts := if intent.file_type ≠ "" then queryParts ++ ["filetype:" ++ intent.file_type] else queryParts
  let queryParts := intent.exclude_words.foldl
      (fun acc word => if word ≠ "" then acc ++ ["-" ++ word] else acc) queryParts
  let queryParts := if intent.date_range ≠ "" then queryParts ++ ["after:" ++ intent.date_range] else queryParts
  queryParts

/-- `strings.Join(queryParts, " ")` (main.go 190): the raw value handed to
`params.Add("q", _)`, i.e. the decoded `q` parameter of the returned URL. -/
def joinedQuery (intent : SearchIntent) : String :=
  String.intercalate " " (constructQueryParts intent)

/-- UTF-8 encoding of one character, as Go lays a `string` out in bytes. -/
def utf8Bytes (c : Char) : List Nat :=
  let v := c.toNat
  if v < 128 then [v]
  else if v < 2048 then [192 + v / 64, 128 + v % 64]
  else if v < 65536 then [224 + v / 4096, 128 + v / 64 % 64, 128 + v % 64]
  else [240 + v / 262144, 128 + v / 4096 % 64, 128 + v / 64 % 64, 128 + v % 64]

/-- The byte sequence of a Go string. -/
def strBytes (s : String) : List Nat := s.data.flatMap utf8Bytes

/-- Go `url.shouldEscape(c, encodeQueryComponent)` is false exactly for
alphanumerics and `-_.~` (net/url). -/
def isUnreservedByte (b : Nat) : Bool :=
  if (65 ≤ b ∧ b ≤ 90) ∨ (97 ≤ b ∧ b ≤ 122) ∨ (48 ≤ b ∧ b ≤ 57)
      ∨ b = 45 ∨ b = 46 ∨ b = 95 ∨ b = 126
  then true else false

/-- Upper-case hexadecimal digit, as emitted by Go's `url.escape`. -/
def upperHexDigit (n : Nat) : Char :=
  if n < 10 then Char.ofNat (48 + n) else Char.ofNat (55 + n)

/-- How Go `url.QueryEscape` renders one byte: space becomes `+`, unreserved
bytes pass through, everything else becomes `%XX` with upper-case hex. -/
def escapeByte (b : Nat) : List Char :=
  if b = 32 then ['+']
  else if isUnreservedByte b then [Char.ofNat b]
  else ['%', upperHexDigit (b / 16), upperHexDigit (b % 16)]

/-- Go `url.QueryEscape`, applied byte-wise to the UTF-8 bytes. -/
def queryEscape (s : String) : String := String.mk ((strBytes s).flatMap escapeByte)

/-- Go `url.Values.Encode()` for the one-key `Values` built in
`constructSearchQuery` (main.go 189-191): with the single key `"q"` it renders
`QueryEscape(key) ++ "=" ++ QueryEscape(value)`. -/
def urlValuesEncodeSingle (key value : String) : String :=
  queryEscape key ++ "=" ++ queryEscape value

/-- `constructSearchQuery` (main.go 157-193): the final
`fmt.Sprintf("%s?%s", baseURL, params.Encode())`. -/
def constructSearchQuery (intent : SearchIntent) : String :=
  "https://www.google.com/search" ++ "?" ++ urlValuesEncodeSingle "q" (joinedQuery intent)

/-- Value of a hexadecimal digit character (Go `unhex`). -/
def hexVal (c : Char) : Option Nat :=
  if '0' ≤ c ∧ c ≤ '9' then some (c.toNat - 48)
  else if 'a' ≤ c ∧ c ≤ 'f' then some (c.toNat - 87)
  else if 'A' ≤ c ∧ c ≤ 'F' then some (c.toNat - 55)
  else none

/-- Inverse direction, Go `url.QueryUnescape` restricted to query components:
`+` is a space, `%XX` is a byte, a stray `%` is an error. -/
def unescapeQueryBytes : List Char → Option (List Nat)
  | [] => some []
  | '+' :: r => (unescapeQueryBytes r).map (fun bs => 32 :: bs)
  | '%' :: h1 :: h2 :: r =>
    match hexVal h1, hexVal h2 with
    | some a, some b => (unescapeQueryBytes r).map (fun bs => (a * 16 + b) :: bs)
    | _, _ => none
  | '%' :: _ => none
  | c :: r => (unescapeQueryBytes r).map (fun bs => c.toNat :: bs)

/- ===== Clause blocks (for stating order / skipping properties) ===== -/

/-- Clause block emitted for `main_query` (main.go 160-162). -/
def mainQueryClause (main_query : String) : List String :=
  if main_query ≠ "" then [main_query] else []

/-- Clause block emitted by the `exact_phrases` loop (main.go 164-168). -/
def phraseClauses (exact_phrases : List String) : List String :=
  (exact_phrases.filter (fun p => decide (p ≠ ""))).map (fun p => "\"" ++ p ++ "\"")

/-- Clause block emitted for `site_filter` (main.go 170-172). -/
def siteClause (site_filter : String) : List String :=
  if site_filter ≠ "" then ["site:" ++ site_filter] else []

/-- Clause block emitted for `file_type` (main.go 174-176). -/
def fileTypeClause (file_type : String) : List String :=
  if file_type ≠ "" then ["filetype:" ++ file_type] else []

/-- Clause block emitted by the `exclude_words` loop (main.go 178-182). -/
def excludeClauses (exclude_words : List String) : List String :=
  (exclude_words.filter (fun w => decide (w ≠ ""))).map (fun w => "-" ++ w)

/-- Clause block emitted for `date_range` (main.go 184-186). -/
def dateRangeClause (date_range : String) : List String :=
  if date_range ≠ "" then ["after:" ++ date_range] else []

/- ===== Intent extraction (analyzePromptWithOpenAI, main.go 126-154) ===== -/

/-- Mirrors the `Message` member of the anonymous choice struct in Go's
`OpenAIResponse` (main.go 44-48). -/
structure OpenAIMessage where
  content : String
deriving DecidableEq

/-- One element of `OpenAIResponse.Choices`. -/
structure OpenAIChoice where
  message : OpenAIMessage
deriving DecidableEq

/-- Mirrors Go `OpenAIResponse` (main.go 43-52).  The `Error` pointer-to-struct
is `Option` of its `Message` field. -/
structure OpenAIResponse where
  choices : List OpenAIChoice
  error : Option String
deriving DecidableEq

/-- The distinct error returns of `analyzePromptWithOpenAI` after the HTTP
exchange (main.go 131-144): the provider-reported error (with its message),
the zero-choices case, and the intent-JSON parse failure (with the trimmed
content). -/
inductive ExtractError where
  | apiError (message : String)
  | noChoices
  | malformedIntent (content : String)
deriving DecidableEq

/-- JSON values, as `encoding/json` classifies them.  Numbers keep their raw
text: the program never decodes one into a field, they only matter as type
mismatches. -/
inductive Json where
  | null
  | bool (b : Bool)
  | num (raw : String)
  | str (s : String)
  | arr (elems : List Json)
  | obj (fields : List (String × Json))

/-- JSON insignificant whitespace (RFC 8259, as `encoding/json` skips it). -/
def isJsonWs (c : Char) : Bool :=
  c = ' ' || c = '\t' || c = '\n' || c = '\r'

def skipWs : List Char → List Char
  | [] => []
  | c :: cs => if isJsonWs c then skipWs cs else c :: cs

/-- Left brace / right brace characters (0x7B / 0x7D). -/
def lbrace : Char := Char.ofNat 123

def rbrace : Char := Char.ofNat 125

/-- Body of a JSON string after the opening quote, with the escapes
`encoding/json` accepts.  A lone `\uXXXX` surrogate decodes to U+FFFD as in
Go; (surrogate-pair combination is not modelled, no claim exercises it).
Raw control characters below 0x20 are rejected, as in Go. -/
def parseStringBody : List Char → List Char → Option (String × List Char)
  | _, [] => none
  | acc, c :: rest =>
    if c = '"' then some (String.mk acc.reverse, rest)
    else if c = '\\' then
      match rest with
      | [] => none
      | e :: rest2 =>
        if e = '"' then parseStringBody ('"' :: acc) rest2
        else if e = '\\' then parseStringBody ('\\' :: acc) rest2
        else if e = '/' then parseStringBody ('/' :: acc) rest2
        else if e = 'b' then parseStringBody (Char.ofNat 8 :: acc) rest2
        else if e = 'f' then parseStringBody (Char.ofNat 12 :: acc) rest2
        else if e = 'n' then parseStringBody ('\n' :: acc) rest2
        else if e = 'r' then parseStringBody ('\r' :: acc) rest2
        else if e = 't' then parseStringBody ('\t' :: acc) rest2
        else if e = 'u' then
          match rest2 with
          | h1 :: h2 :: h3 :: h4 :: rest3 =>
            match hexVal h1, hexVal h2, hexVal h3, hexVal h4 with
            | some a, some b, some c2, some d =>
              let code := a * 4096 + b * 256 + c2 * 16 + d
              let ch := if 55296 ≤ code ∧ code ≤ 57343 then Char.ofNat 65533 else Char.ofNat code
              parseStringBody (ch :: acc) rest3
            | _, _, _, _ => none
          | _ => none
        else none
    else if c.toNat < 32 then none
    else parseStringBody (c :: acc) rest

/-- Longest digit run at the head of the input. -/
def takeDigits : List Char → List Char × List Char
  | [] => ([], [])
  | c :: cs =>
    if c.isDigit then
      let (d, r) := takeDigits cs
      (c :: d, r)
    else ([], c :: cs)

/-- Fractional part `.digits`, if present (RFC 8259 number grammar). -/
def parseFracPart : List Char → Option (List Char × List Char)
  | '.' :: r =>
    let (d, r2) := takeDigits r
    if d.isEmpty then none else some ('.' :: d, r2)
  | cs => some ([], cs)

/-- Exponent part `e[+-]digits`, if present. -/
def parseExpPart : List Char → Option (List Char × List Char)
  | [] => some ([], [])
  | c :: r =>
    if c = 'e' ∨ c = 'E' then
      let (sgn, r1) := match r with
        | '+' :: r2 => (['+'], r2)
        | '-' :: r2 => (['-'], r2)
        | _ => ([], r)
      let (d, r2) := takeDigits r1
      if d.isEmpty then none else some (c :: (sgn ++ d), r2)
    else some ([], c :: r)

/-- A JSON number token (no leading zeros, optional sign/fraction/exponent). -/
def parseNumberToken (cs : List Char) : Option (List Char × List Char) :=
  let (sign, cs1) := match cs with
    | '-' :: r => (['-'], r)
    | _ => ([], cs)
  let (intPart, cs2) := takeDigits cs1
  if intPart.isEmpty then none
  else if intPart.length > 1 ∧ intPart.head? = some '0' then none
  else
    match parseFracPart cs2 with
    | none => none
    | some (frac, cs3) =>
      match parseExpPart cs3 with
      | none => none
      | some (ex, cs4) => some (sign ++ intPart ++ frac ++ ex, cs4)

/-- Work items of the fuel-indexed JSON parser: a value to parse, or the tail
of an array / object whose opening token is already consumed. -/
inductive ParseTask where
  | value (cs : List Char)
  | arrRest (acc : List Json) (cs : List Char)
  | objRest (acc : List (String × Json)) (cs : List Char)

/-- Recursive-descent JSON parser, structurally recursive on fuel so that it
reduces in the kernel.  Follows the grammar `encoding/json` accepts. -/
def parseRun : Nat → ParseTask → Option (Json × List Char)
  | 0, _ => none
  | fuel + 1, .value cs =>
    match skipWs cs with
    | [] => none
    | 'n' :: 'u' :: 'l' :: 'l' :: r => some (.null, r)
    | 't' :: 'r' :: 'u' :: 'e' :: r => some (.bool true, r)
    | 'f' :: 'a' :: 'l' :: 's' :: 'e' :: r => some (.bool false, r)
    | '"' :: r => (parseStringBody [] r).map (fun x => (.str x.1, x.2))
    | '[' :: r =>
      (match skipWs r with
       | ']' :: r2 => some (.arr [], r2)
       | cs2 => parseRun fuel (.arrRest [] cs2))
    | c :: r =>
      if c = lbrace then
        match skipWs r with
        | [] => none
        | c2 :: r2 =>
          if c2 = rbrace then some (.obj [], r2)
          else parseRun fuel (.objRest [] (c2 :: r2))
      else
        (parseNumberToken (c :: r)).map (fun x => (.num (String.mk x.1), x.2))
  | fuel + 1, .arrRest acc cs =>
    match parseRun fuel (.value cs) with
    | none => none
    | some (v, r) =>
      match skipWs r with
      | ',' :: r2 => parseRun fuel (.arrRest (v :: acc) r2)
      | ']' :: r2 => some (.arr (v :: acc).reverse, r2)
      | _ => none
  | fuel + 1, .objRest acc cs =>
    match skipWs cs with
    | '"' :: r =>
      (match parseStringBody [] r with
       | none => none
       | some (k, r1) =>
         match skipWs r1 with
         | ':' :: r2 =>
           (match parseRun fuel (.value r2) with
            | none => none
            | some (v, r3) =>
              match skipWs r3 with
              | ',' :: r4 => parseRun fuel (.objRest ((k, v) :: acc) r4)
              | c4 :: r4 =>
                if c4 = rbrace then some (.obj ((k, v) :: acc).reverse, r4) else none
              | [] => none)
         | _ => none)
    | _ => none

/-- `json.Unmarshal` syntax check: exactly one JSON value, with only
whitespace around it; anything else (prose, trailing text) is a syntax
error. -/
def parseJsonStrict (s : String) : Option Json :=
  match parseRun (2 * s.length + 4) (.value s.data) with
  | some (v, rest) => if skipWs rest = [] then some v else none
  | none => none

/-- ASCII lower-casing, for `encoding/json`'s case-insensitive key match. -/
def toLowerAscii (c : Char) : Char :=
  if 'A' ≤ c ∧ c ≤ 'Z' then Char.ofNat (c.toNat + 32) else c

/-- Case-insensitive key comparison (Go matches struct JSON tags with
`strings.EqualFold` when no exact-case field matches; the six tags here are
pairwise distinct even case-folded, so one fold-comparison is equivalent). -/
def eqFold (a b : String) : Bool :=
  a.data.map toLowerAscii == b.data.map toLowerAscii

/-- Decoding a JSON value into a Go `string` field: a JSON string stores its
text, JSON `null` leaves the field unchanged, anything else is an
`UnmarshalTypeError`. -/
def asString (j : Json) (cur : String) : Option String :=
  match j with
  | .str s => some s
  | .null => some cur
  | _ => none

/-- Decoding a JSON value into a Go `[]string` field: an array of strings
(array-element `null` becomes `""`), JSON `null` leaves the field unchanged,
anything else is an `UnmarshalTypeError`. -/
def asStringList (j : Json) (cur : Option (List String)) : Option (Option (List String)) :=
  match j with
  | .null => some cur
  | .arr elems =>
    (elems.mapM (fun (e : Json) =>
      match e with
      | .str s => some s
      | .null => some ""
      | _ => none)).map some
  | _ => none

/-- `SearchIntent` zero value: `""` strings and `nil` slices. -/
def zeroParsed : ParsedIntent := ⟨"", none, "", "", none, ""⟩

/-- Store one object member into the struct: unknown keys are ignored,
known keys decode by field type; later duplicates overwrite. -/
def setField (p : ParsedIntent) (key : String) (v : Json) : Option ParsedIntent :=
  if eqFold key "main_query" then
    (asString v p.main_query).map (fun s => { p with main_query := s })
  else if eqFold key "exact_phrases" then
    (asStringList v p.exact_phrases).map (fun l => { p with exact_phrases := l })
  else if eqFold key "site_filter" then
    (asString v p.site_filter).map (fun s => { p with site_filter := s })
  else if eqFold key "file_type" then
    (asString v p.file_type).map (fun s => { p with file_type := s })
  else if eqFold key "exclude_words" then
    (asStringList v p.exclude_words).map (fun l => { p with exclude_words := l })
  else if eqFold key "date_range" then
    (asString v p.date_range).map (fun s => { p with date_range := s })
  else some p

/-- `json.Unmarshal(content, &intent)`: a top-level `null` leaves the
zero-valued destination unchanged and is NOT an error (encoding/json:
"unmarshaling a JSON null into any other Go type has no effect"); an object
decodes member by member; any other top-level value is a type error. -/
def unmarshalIntent (j : Json) : Option ParsedIntent :=
  match j with
  | .null => some zeroParsed
  | .obj fields => fields.foldlM (fun p kv => setField p kv.1 kv.2) zeroParsed
  | _ => none

/-- The whole `json.Unmarshal([]byte(content), &intent)` call of main.go 142:
syntax check then decoding. -/
def unmarshalContent (content : String) : Option ParsedIntent :=
  (parseJsonStrict content).bind unmarshalIntent

/-- Go `unicode.IsSpace`, the predicate behind `strings.TrimSpace`. -/
def isGoSpace (c : Char) : Bool :=
  let n := c.toNat
  decide ((9 ≤ n ∧ n ≤ 13) ∨ n = 32 ∨ n = 133 ∨ n = 160 ∨ n = 5760
    ∨ (8192 ≤ n ∧ n ≤ 8202) ∨ n = 8232 ∨ n = 8233 ∨ n = 8239 ∨ n = 8287 ∨ n = 12288)

/-- `strings.TrimSpace` (main.go 141). -/
def goTrimSpace (s : String) : String :=
  String.mk (((s.data.dropWhile isGoSpace).reverse.dropWhile isGoSpace).reverse)

/-- The nil-slice normalization of main.go 146-152: `nil` slices become empty
slices before the intent is returned. -/
def normalizeIntent (p : ParsedIntent) : SearchIntent :=
  let exactPhrases := match p.exact_phrases with
    | some l => l
    | none => []
  let excludeWords := match p.exclude_words with
    | some l => l
    | none => []
  ⟨p.main_query, exactPhrases, p.site_filter, p.file_type, excludeWords, p.date_range⟩

/-- The response-processing tail of `analyzePromptWithOpenAI`
(main.go 131-154), after the HTTP exchange and the body unmarshal: the
provider-error check, the empty-choices check, `TrimSpace` of the first
choice's content, the intent unmarshal, and the normalization. -/
def analyzeOpenAIResponse (resp : OpenAIResponse) : Except ExtractError SearchIntent :=
  match resp.error with
  | some msg => .error (.apiError msg)
  | none =>
    match resp.choices with
    | [] => .error .noChoices
    | choice :: _ =>
      let content := goTrimSpace choice.message.content
      match unmarshalContent content with
      | none => .error (.malformedIntent content)
      | some p => .ok (normalizeIntent p)

theorem foldl_emit (f : String → String) (l : List String) :
    ∀ (acc : List String),
      l.foldl (fun acc s => if s ≠ "" then acc ++ [f s] else acc) acc
        = acc ++ (l.filter (fun s => decide (s ≠ ""))).map f := by
  induction l with
  | nil => intro acc; simp
  | cons s l ih =>
    intro acc
    rw [List.foldl_cons, ih, List.filter_cons]
    by_cases h : s = "" <;> simp [h, List.append_assoc]

theorem append_ite (c : Prop) [Decidable c] (x : List String) (y : String) :
    (if c then x ++ [y] else x) = x ++ (if c then [y] else []) := by
  by_cases h : c <;> simp [h]

/-- The `queryParts` slice decomposes into the six clause blocks in source
order. -/
theorem constructQueryParts_eq (intent : SearchIntent) :
    constructQueryParts intent
      = mainQueryClause intent.main_query ++ phraseClauses intent.exact_phrases
          ++ siteClause intent.site_filter ++ fileTypeClause intent.file_type
          ++ excludeClauses intent.exclude_words ++ dateRangeClause intent.date_range := by
  simp only [constructQueryParts, foldl_emit, mainQueryClause, phraseClauses,
    siteClause, fileTypeClause, excludeClauses, dateRangeClause]
  by_cases h1 : intent.main_query = "" <;> by_cases h2 : intent.site_filter = "" <;>
    by_cases h3 : intent.file_type = "" <;> by_cases h4 : intent.date_range = "" <;>
      simp [h1, h2, h3, h4, List.append_assoc]

set_option maxRecDepth 100000

theorem string_length_zero_eq_empty (s : String) (h : s.length = 0) : s = "" := by
  cases s with
  | mk data => simp [String.length] at h; simp [h]

theorem quoted_ne_empty_pair (p : String) (hp : p ≠ "") : "\"" ++ p ++ "\"" ≠ "\"\"" := by
  intro hq
  apply hp
  have hlen := congrArg String.length hq
  rw [String.length_append, String.length_append] at hlen
  have h1 : ("\"" : String).length = 1 := rfl
  have h2 : ("\"\"" : String).length = 2 := rfl
  exact string_length_zero_eq_empty p (by omega)

theorem dashed_ne_bare (w : String) (hw : w ≠ "") : "-" ++ w ≠ "-" := by
  intro hq
  apply hw
  have hlen := congrArg String.length hq
  rw [String.length_append] at hlen
  have h1 : ("-" : String).length = 1 := rfl
  exact string_length_zero_eq_empty w (by omega)

/-- The worked six-field intent of the spec's example. -/
def exIntent : SearchIntent :=
  ⟨"machine learning", ["research papers"], "arxiv.org", "pdf", ["blog"], "2024"⟩

/-- C1: For every SearchIntent, the clauses that build emits into the decoded
`q` parameter appear in exactly the fixed order: main query first (if
non-empty), then each exact phrase double-quoted in input order, then
`site:<site_filter>` (if non-empty), then `filetype:<file_type>` (if
non-empty), then `-<word>` for each exclude word in input order, then
`after:<date_range>` (if non-empty), joined by single spaces. -/
theorem joinedQuery_clause_order (intent : SearchIntent) :
    joinedQuery intent = String.intercalate " "
      ((if intent.main_query ≠ "" then [intent.main_query] else [])
        ++ (intent.exact_phrases.filter (fun p => decide (p ≠ ""))).map (fun p => "\"" ++ p ++ "\"")
        ++ (if intent.site_filter ≠ "" then ["site:" ++ intent.site_filter] else [])
        ++ (if intent.file_type ≠ "" then ["filetype:" ++ intent.file_type] else [])
        ++ (intent.exclude_words.filter (fun w => decide (w ≠ ""))).map (fun w => "-" ++ w)
        ++ (if intent.date_range ≠ "" then ["after:" ++ intent.date_range] else [])) := by
  rw [joinedQuery, constructQueryParts_eq]
  rfl

/-- C2: For the spec's worked intent, build returns a URL whose decoded `q`
parameter equals exactly
`machine learning "research papers" site:arxiv.org filetype:pdf -blog after:2024`:
the joined value handed to `params.Add("q", _)` is that string, the returned
URL carries its query-encoding, decoding the URL's `q` value gives back
exactly its bytes, and the model reply of the spec's example extracts to that
intent. -/
theorem exIntent_query_exact :
    joinedQuery exIntent
        = "machine learning \"research papers\" site:arxiv.org filetype:pdf -blog after:2024"
    ∧ constructSearchQuery exIntent
        = "https://www.google.com/search?q=machine+learning+%22research+papers%22+site%3Aarxiv.org+filetype%3Apdf+-blog+after%3A2024"
    ∧ unescapeQueryBytes
        ("machine+learning+%22research+papers%22+site%3Aarxiv.org+filetype%3Apdf+-blog+after%3A2024".data)
        = some (strBytes "machine learning \"research papers\" site:arxiv.org filetype:pdf -blog after:2024")
    ∧ analyzeOpenAIResponse
        ⟨[⟨⟨"\x7b\"main_query\":\"machine learning\",\"exact_phrases\":[\"research papers\"],\"site_filter\":\"arxiv.org\",\"file_type\":\"pdf\",\"exclude_words\":[\"blog\"],\"date_range\":\"2024\"\x7d"⟩⟩], none⟩
        = .ok exIntent :=
  ⟨rfl, rfl, rfl, rfl⟩

/-- C3 counterexample: the claim says hyphens in the `q` value are encoded,
but Go's `url.QueryEscape` treats `-` as unreserved and leaves it verbatim:
for the intent excluding the word `blog` the URL carries a literal `-`. -/
theorem hyphen_not_encoded_counterexample :
    constructSearchQuery ⟨"", [], "", "", ["blog"], ""⟩
      = "https://www.google.com/search?q=-blog"
    ∧ queryEscape "-" = "-"
    ∧ ("https://www.google.com/search?q=-blog".data.count '%') = 0 :=
  ⟨rfl, rfl, rfl⟩

/-- C3 amended: the joined clause string is attached as the single `q`
parameter on the fixed base URL, query-encoded as a whole: spaces become `+`,
double quotes become `%22`, colons become `%3A`; hyphens are unreserved and
pass through unencoded. -/
theorem query_encoding_amended (intent : SearchIntent) :
    constructSearchQuery intent
        = "https://www.google.com/search?q=" ++ queryEscape (joinedQuery intent)
    ∧ queryEscape " " = "+"
    ∧ queryEscape "\"" = "%22"
    ∧ queryEscape ":" = "%3A"
    ∧ queryEscape "-" = "-" :=
  ⟨rfl, rfl, rfl, rfl, rfl⟩

/-- C4: after extraction the list fields are never absent: a `nil`
`exact_phrases` / `exclude_words` is replaced by the empty list, a present
list is kept, the other four fields pass through, an intent with no phrases
yields no phrase clause, and a reply missing the `exact_phrases` key
end-to-end extracts to an empty list. -/
theorem normalize_lists_never_absent (p : ParsedIntent) :
    (p.exact_phrases = none → (normalizeIntent p).exact_phrases = [])
    ∧ (p.exclude_words = none → (normalizeIntent p).exclude_words = [])
    ∧ (∀ l, p.exact_phrases = some l → (normalizeIntent p).exact_phrases = l)
    ∧ (∀ l, p.exclude_words = some l → (normalizeIntent p).exclude_words = l)
    ∧ (normalizeIntent p).main_query = p.main_query
    ∧ (normalizeIntent p).site_filter = p.site_filter
    ∧ (normalizeIntent p).file_type = p.file_type
    ∧ (normalizeIntent p).date_range = p.date_range
    ∧ ((normalizeIntent p).exact_phrases = [] → phraseClauses (normalizeIntent p).exact_phrases = [])
    ∧ analyzeOpenAIResponse ⟨[⟨⟨"\x7b\"main_query\":\"x\"\x7d"⟩⟩], none⟩
        = .ok ⟨"x", [], "", "", [], ""⟩ := by
  refine ⟨?_, ?_, ?_, ?_, rfl, rfl, rfl, rfl, ?_, rfl⟩
  · intro h; simp [normalizeIntent, h]
  · intro h; simp [normalizeIntent, h]
  · intro l h; simp [normalizeIntent, h]
  · intro l h; simp [normalizeIntent, h]
  · intro h; rw [h]; rfl

theorem normalize_lists_never_absent_witness :
    (normalizeIntent ⟨"x", none, "", "", none, ""⟩).exact_phrases = []
    ∧ (normalizeIntent ⟨"x", none, "", "", none, ""⟩).exclude_words = [] :=
  ⟨(normalize_lists_never_absent ⟨"x", none, "", "", none, ""⟩).1 rfl,
   (normalize_lists_never_absent ⟨"x", none, "", "", none, ""⟩).2.1 rfl⟩

/-- C5 counterexample: the reply content `null` is, after trimming, not a JSON
object matching the six-field schema (it parses as the JSON null value), yet
`json.Unmarshal` accepts it and extraction succeeds with the zero-valued
intent instead of failing. -/
theorem null_reply_accepted_counterexample :
    analyzeOpenAIResponse ⟨[⟨⟨"null"⟩⟩], none⟩ = .ok ⟨"", [], "", "", [], ""⟩
    ∧ parseJsonStrict "null" = some .null
    ∧ goTrimSpace "null" = "null" :=
  ⟨rfl, rfl, rfl⟩

/-- C5 amended: every model reply whose trimmed content fails Go JSON decoding
into the schema (not a single JSON value, or a value of the wrong kind for the
struct or one of its fields) makes extraction fail with the malformed-intent
error carrying the trimmed content, and no intent is returned. -/
theorem malformed_reply_rejected (resp : OpenAIResponse) (choice : OpenAIChoice)
    (rest : List OpenAIChoice) (herr : resp.error = none)
    (hch : resp.choices = choice :: rest)
    (hbad : unmarshalContent (goTrimSpace choice.message.content) = none) :
    analyzeOpenAIResponse resp
      = .error (.malformedIntent (goTrimSpace choice.message.content)) := by
  obtain ⟨choices, error⟩ := resp
  simp only at herr hch
  subst herr hch
  simp [analyzeOpenAIResponse, hbad]

theorem malformed_reply_rejected_witness :
    analyzeOpenAIResponse
        ⟨[⟨⟨"Here is the JSON: \x7b\"main_query\":\"x\"\x7d"⟩⟩], none⟩
      = .error (.malformedIntent "Here is the JSON: \x7b\"main_query\":\"x\"\x7d") :=
  malformed_reply_rejected
    ⟨[⟨⟨"Here is the JSON: \x7b\"main_query\":\"x\"\x7d"⟩⟩], none⟩
    ⟨⟨"Here is the JSON: \x7b\"main_query\":\"x\"\x7d"⟩⟩ [] rfl rfl rfl

/-- C6: empty-string entries of `exact_phrases` / `exclude_words` emit no
clause: prepending an empty entry leaves the emitted clause list unchanged,
and the phrase / exclude blocks never contain a stray `""` pair or a bare
`-`. -/
theorem empty_entries_emit_no_clause (intent : SearchIntent) :
    constructQueryParts { intent with exact_phrases := "" :: intent.exact_phrases }
        = constructQueryParts intent
    ∧ constructQueryParts { intent with exclude_words := "" :: intent.exclude_words }
        = constructQueryParts intent
    ∧ "\"\"" ∉ phraseClauses intent.exact_phrases
    ∧ "-" ∉ excludeClauses intent.exclude_words := by
  refine ⟨?_, ?_, ?_, ?_⟩
  · rw [constructQueryParts_eq, constructQueryParts_eq]
    simp [phraseClauses, List.filter_cons]
  · rw [constructQueryParts_eq, constructQueryParts_eq]
    simp [excludeClauses, List.filter_cons]
  · intro h
    rw [phraseClauses] at h
    obtain ⟨p, hp, hq⟩ := List.mem_map.mp h
    exact quoted_ne_empty_pair p (of_decide_eq_true (List.mem_filter.mp hp).2) hq
  · intro h
    rw [excludeClauses] at h
    obtain ⟨w, hw, hq⟩ := List.mem_map.mp h
    exact dashed_ne_bare w (of_decide_eq_true (List.mem_filter.mp hw).2) hq

theorem empty_entries_emit_no_clause_witness :
    constructQueryParts ⟨"x", ["" , "a"], "", "", [""], ""⟩
        = constructQueryParts ⟨"x", ["a"], "", "", [], ""⟩
    ∧ "\"\"" ∉ phraseClauses (SearchIntent.exact_phrases ⟨"x", ["", "a"], "", "", [""], ""⟩) :=
  ⟨by decide,
   (empty_entries_emit_no_clause ⟨"x", ["", "a"], "", "", [""], ""⟩).2.2.1⟩

/-- C7: the all-empty intent still builds a well-formed URL: the base URL with
an empty `q` value, and the joined query itself is the empty string. -/
theorem all_empty_intent_url :
    constructSearchQuery ⟨"", [], "", "", [], ""⟩ = "https://www.google.com/search?q="
    ∧ joinedQuery ⟨"", [], "", "", [], ""⟩ = "" :=
  ⟨rfl, rfl⟩

/-- C8: a provider-reported error makes extraction fail with the API error
carrying the provider's message; with no provider error and zero choices it
fails with the empty-response error; in both cases no intent is returned. -/
theorem provider_error_and_empty_choices (resp : OpenAIResponse) :
    (∀ msg, resp.error = some msg → analyzeOpenAIResponse resp = .error (.apiError msg))
    ∧ (resp.error = none → resp.choices = [] → analyzeOpenAIResponse resp = .error .noChoices) := by
  obtain ⟨choices, error⟩ := resp
  constructor
  · intro msg h
    simp only at h
    subst h
    rfl
  · intro h1 h2
    simp only at h1 h2
    subst h1 h2
    rfl

theorem provider_error_and_empty_choices_witness :
    analyzeOpenAIResponse ⟨[], some "insufficient quota"⟩
        = .error (.apiError "insufficient quota")
    ∧ analyzeOpenAIResponse ⟨[], none⟩ = .error .noChoices :=
  ⟨(provider_error_and_empty_choices ⟨[], some "insufficient quota"⟩).1 "insufficient quota" rfl,
   (provider_error_and_empty_choices ⟨[], none⟩).2 rfl rfl⟩

/-- C9: build is total over SearchIntent: every intent yields the base URL
with a single encoded `q` parameter, and emptying any one field only removes
clauses (the emitted clause list of the emptier intent is a sublist of the
original's). -/
theorem constructSearchQuery_total_graceful (intent : SearchIntent) :
    constructSearchQuery intent
        = "https://www.google.com/search?q=" ++ queryEscape (joinedQuery intent)
    ∧ List.Sublist (constructQueryParts { intent with main_query := "" })
        (constructQueryParts intent)
    ∧ List.Sublist (constructQueryParts { intent with exact_phrases := [] })
        (constructQueryParts intent)
    ∧ List.Sublist (constructQueryParts { intent with site_filter := "" })
        (constructQueryParts intent)
    ∧ List.Sublist (constructQueryParts { intent with file_type := "" })
        (constructQueryParts intent)
    ∧ List.Sublist (constructQueryParts { intent with exclude_words := [] })
        (constructQueryParts intent)
    ∧ List.Sublist (constructQueryParts { intent with date_range := "" })
        (constructQueryParts intent) := by
  refine ⟨rfl, ?_, ?_, ?_, ?_, ?_, ?_⟩
  all_goals rw [constructQueryParts_eq, constructQueryParts_eq]
  · simp only [mainQueryClause, ne_eq, not_true_eq_false, ite_false, List.nil_append]
    exact ((((List.sublist_append_right _ _).append
      (List.Sublist.refl _)).append (List.Sublist.refl _)).append
      (List.Sublist.refl _)).append (List.Sublist.refl _)
  · simp only [phraseClauses, List.filter_nil, List.map_nil, List.append_nil]
    exact ((((List.sublist_append_left _ _).append
      (List.Sublist.refl _)).append (List.Sublist.refl _)).append
      (List.Sublist.refl _)).append (List.Sublist.refl _)
  · simp only [siteClause, ne_eq, not_true_eq_false, ite_false, List.append_nil]
    exact ((((List.sublist_append_left _ _).append
      (List.Sublist.refl _)).append (List.Sublist.refl _)).append
      (List.Sublist.refl _))
  · simp only [fileTypeClause, ne_eq, not_true_eq_false, ite_false, List.append_nil]
    exact (((List.sublist_append_left _ _).append
      (List.Sublist.refl _)).append (List.Sublist.refl _))
  · simp only [excludeClauses, List.filter_nil, List.map_nil, List.append_nil]
    exact ((List.sublist_append_left _ _).append (List.Sublist.refl _))
  · simp only [dateRangeClause, ne_eq, not_true_eq_false, ite_false, List.append_nil]
    exact List.sublist_append_left _ _

/-- C10: field contents are inserted verbatim with no escaping: a non-empty
phrase `p` emits exactly the clause `"` ++ p ++ `"` even when `p` itself
contains quotes, the other fields emit their prefixed verbatim clause, and
for the phrase `a"b` the decoded `q` is `"a"b"`, which contains three double
quotes (nested, unbalanced). -/
theorem verbatim_insertion (intent : SearchIntent) :
    (∀ p, p ∈ intent.exact_phrases → p ≠ "" →
      ("\"" ++ p ++ "\"") ∈ constructQueryParts intent)
    ∧ (∀ w, w ∈ intent.exclude_words → w ≠ "" →
      ("-" ++ w) ∈ constructQueryParts intent)
    ∧ (intent.main_query ≠ "" → intent.main_query ∈ constructQueryParts intent)
    ∧ (intent.site_filter ≠ "" → ("site:" ++ intent.site_filter) ∈ constructQueryParts intent)
    ∧ (intent.file_type ≠ "" → ("filetype:" ++ intent.file_type) ∈ constructQueryParts intent)
    ∧ (intent.date_range ≠ "" → ("after:" ++ intent.date_range) ∈ constructQueryParts intent)
    ∧ joinedQuery ⟨"", ["a\"b"], "", "", [], ""⟩ = "\"a\"b\""
    ∧ ("\"a\"b\"".data.count '"') = 3 := by
  refine ⟨?_, ?_, ?_, ?_, ?_, ?_, rfl, rfl⟩
  all_goals rw [constructQueryParts_eq]
  all_goals simp only [List.mem_append]
  · intro p hp hne
    exact Or.inl (Or.inl (Or.inl (Or.inl (Or.inr
      (List.mem_map.mpr ⟨p, List.mem_filter.mpr ⟨hp, decide_eq_true hne⟩, rfl⟩)))))
  · intro w hw hne
    exact Or.inl (Or.inr
      (List.mem_map.mpr ⟨w, List.mem_filter.mpr ⟨hw, decide_eq_true hne⟩, rfl⟩))
  · intro h
    exact Or.inl (Or.inl (Or.inl (Or.inl (Or.inl (by simp [mainQueryClause, h])))))
  · intro h
    exact Or.inl (Or.inl (Or.inl (Or.inr (by simp [siteClause, h]))))
  · intro h
    exact Or.inl (Or.inl (Or.inr (by simp [fileTypeClause, h])))
  · intro h
    exact Or.inr (by simp [dateRangeClause, h])

theorem verbatim_insertion_witness :
    ("\"research papers\"" ∈ constructQueryParts exIntent)
    ∧ ("-blog" ∈ constructQueryParts exIntent)
    ∧ ("site:arxiv.org" ∈ constructQueryParts exIntent) :=
  ⟨(verbatim_insertion exIntent).1 "research papers" (by decide) (by decide),
   (verbatim_insertion exIntent).2.1 "blog" (by decide) (by decide),
   (verbatim_insertion exIntent).2.2.2.1 (by decide)⟩
